import Mathlib

/-!
# Verification of the F1 data-analysis pipeline

A shallow embedding, in Lean 4, of the core data-processing functions of the
repository (the OpenF1 ingestion and feature-engineering pipeline), together
with theorems settling the specification's claims about them.

Conventions of the embedding:
* pandas DataFrames become Lean lists of records (one structure per table
  schema); a missing/NaN value in an optional column becomes `Option`;
* timestamps and all numeric telemetry values are rationals (`ℚ`);
* `pd.DataFrame.sort_values` becomes `List.mergeSort` with the corresponding
  boolean key comparison (a stable sort, which is all the proofs rely on);
* `pd.merge_asof(..., direction='backward')` keeps every left row and, for a
  left row with key `t`, attaches the last row of the sorted right table whose
  key is `≤ t`, or nothing when no such row exists;
* the `aiohttp`/`tenacity` fetch loop becomes an explicit bounded recursion
  over a stream of abstract HTTP responses.
-/

/-! ## Data model (section 3 of the specification) -/

/-- One high-frequency car telemetry tick (`car_data` endpoint row). -/
structure CarSample where
  session_key : Nat
  driver_number : Nat
  date : ℚ
  speed : ℚ
deriving DecidableEq, Repr

/-- One lap record (`laps` endpoint row); `date_start` marks the instant the
lap begins. -/
structure Lap where
  session_key : Nat
  driver_number : Nat
  lap_number : Nat
  date_start : ℚ
  is_pit_out_lap : Bool
  lap_duration : ℚ
deriving DecidableEq, Repr

/-- One session-global weather reading (`weather` endpoint row). -/
structure WeatherSample where
  date : ℚ
  air_temperature : ℚ
  track_temperature : ℚ
  humidity : ℚ
  rainfall : ℚ
deriving DecidableEq, Repr

/-- The lap columns `merge_data` carries onto a fused row:
`['lap_number', 'is_pit_out_lap']`. -/
structure LapCols where
  lap_number : Nat
  is_pit_out_lap : Bool
deriving DecidableEq, Repr

/-- The weather columns `merge_data` carries onto a fused row. -/
structure WeatherCols where
  air_temperature : ℚ
  track_temperature : ℚ
  humidity : ℚ
  rainfall : ℚ
deriving DecidableEq, Repr

/-- One row of the fused output of `merge_data`: the car sample's own columns
plus the lap columns and weather columns attached by the two backward joins
(`none` models the NaN cells `pd.merge_asof` leaves when no match exists). -/
structure FusedRow where
  car : CarSample
  lap : Option LapCols
  weather : Option WeatherCols
deriving DecidableEq, Repr

/-! ## Fusion Engine: `merge_data` (src/ingestion/processor.py) -/

/-- `pd.merge_asof(..., on='date', direction='backward')`, the per-left-row
selection: the last row of the (sorted) right table whose key is `≤ t`. -/
def asofBackward {α : Type} (right : List α) (key : α → ℚ) (t : ℚ) : Option α :=
  (right.filter (fun r => key r ≤ t)).getLast?

/-- Shallow embedding of `merge_data(car_df, laps_df, weather_df)`:
empty car input returns an empty frame; otherwise the car rows are sorted by
`date`; if laps are present they are sorted by `date_start` and backward-joined
(carrying `lap_number` and `is_pit_out_lap`); if weather rows are present they
are sorted by `date` and backward-joined onto the result. -/
def merge_data (car_df : List CarSample) (laps_df : List Lap)
    (weather_df : List WeatherSample) : List FusedRow :=
  if car_df = [] then []
  else
    let car_sorted := car_df.mergeSort (fun a b => decide (a.date ≤ b.date))
    let withLaps : List FusedRow :=
      if laps_df = [] then car_sorted.map (fun c => ⟨c, none, none⟩)
      else
        let laps_merge := laps_df.mergeSort (fun a b => decide (a.date_start ≤ b.date_start))
        car_sorted.map (fun c =>
          ⟨c, (asofBackward laps_merge (fun l => l.date_start) c.date).map
                (fun l => ⟨l.lap_number, l.is_pit_out_lap⟩), none⟩)
    if weather_df = [] then withLaps
    else
      let weather_merge := weather_df.mergeSort (fun a b => decide (a.date ≤ b.date))
      withLaps.map (fun r =>
        ⟨r.car, r.lap, (asofBackward weather_merge (fun w => w.date) r.car.date).map
            (fun w => ⟨w.air_temperature, w.track_temperature, w.humidity, w.rainfall⟩)⟩)

/-! ### Helper lemmas about the backward join -/

theorem asofBackward_mem {α : Type} {right : List α} {key : α → ℚ} {t : ℚ} {x : α}
    (h : asofBackward right key t = some x) : x ∈ right ∧ key x ≤ t := by
  have hx : x ∈ right.filter (fun r => key r ≤ t) := by
    unfold asofBackward at h
    exact List.mem_of_mem_getLast? h
  have := List.of_mem_filter hx
  exact ⟨List.mem_of_mem_filter hx, by simpa using this⟩

theorem getLast?_isSome_of_ne_nil {α : Type} {l : List α} (h : l ≠ []) :
    ∃ x, l.getLast? = some x := by
  cases l with
  | nil => exact absurd rfl h
  | cons a as => exact ⟨(a :: as).getLast (by simp), List.getLast?_eq_getLast _ _⟩

/-- In a list that is pairwise-sorted by `le`, the last element is an upper
bound of every member. -/
theorem getLast?_is_ub {α : Type} {le : α → α → Prop} {l : List α} {y : α}
    (hs : l.Pairwise le) (hy : l.getLast? = some y) (hrefl : le y y) :
    ∀ x ∈ l, le x y := by
  induction l with
  | nil => intro x hx; cases hx
  | cons a as ih =>
    intro x hx
    cases as with
    | nil =>
      simp at hy
      simp at hx
      subst hx; subst hy; exact hrefl
    | cons b bs =>
      have hy' : (b :: bs).getLast? = some y := by
        rw [List.getLast?_cons_cons] at hy
        exact hy
      rcases List.mem_cons.mp hx with hxa | hxas
      · subst hxa
        have hyin : y ∈ b :: bs := List.mem_of_mem_getLast? hy'
        exact (List.pairwise_cons.mp hs).1 y hyin
      · exact ih (List.pairwise_cons.mp hs).2 hy' x hxas

/-- Sorting a list by a rational-valued key with `mergeSort` yields a list
that is pairwise non-decreasing in that key. -/
theorem mergeSort_pairwise_key {α : Type} (key : α → ℚ) (l : List α) :
    (l.mergeSort (fun a b => decide (key a ≤ key b))).Pairwise
      (fun a b => key a ≤ key b) := by
  have := @List.sorted_mergeSort α (fun a b => decide (key a ≤ key b))
    (fun a b c hab hbc => by
      simp only [decide_eq_true_eq] at *
      exact le_trans hab hbc)
    (fun a b => by
      simp only [Bool.or_eq_true, decide_eq_true_eq]
      exact le_total (key a) (key b))
    l
  refine this.imp ?_
  intro a b h
  simpa using h

theorem mem_mergeSort_key {α : Type} {le : α → α → Bool} {l : List α} {x : α} :
    x ∈ l.mergeSort le ↔ x ∈ l :=
  (List.mergeSort_perm l le).mem_iff

/-! ### A closed form for the rows of `merge_data` -/

/-- The lap columns the laps backward join attaches to a fused row whose
timestamp is `t` (`none` both when the laps input is empty — the join is then
skipped altogether — and when no lap has started by `t`). -/
def lapAttach (laps_df : List Lap) (t : ℚ) : Option LapCols :=
  if laps_df = [] then none
  else
    (asofBackward (laps_df.mergeSort (fun a b => decide (a.date_start ≤ b.date_start)))
        (fun l => l.date_start) t).map
      (fun l => ⟨l.lap_number, l.is_pit_out_lap⟩)

/-- The weather columns the weather backward join attaches to a fused row
whose timestamp is `t`. -/
def weatherAttach (weather_df : List WeatherSample) (t : ℚ) : Option WeatherCols :=
  if weather_df = [] then none
  else
    (asofBackward (weather_df.mergeSort (fun a b => decide (a.date ≤ b.date)))
        (fun w => w.date) t).map
      (fun w => ⟨w.air_temperature, w.track_temperature, w.humidity, w.rainfall⟩)

/-- Row-level closed form of `merge_data`: each output row is one sorted car
sample together with the columns the two backward joins attach at its
timestamp. -/
theorem merge_data_eq (car_df : List CarSample) (laps_df : List Lap)
    (weather_df : List WeatherSample) :
    merge_data car_df laps_df weather_df =
      if car_df = [] then []
      else
        (car_df.mergeSort (fun a b => decide (a.date ≤ b.date))).map
          (fun c => ⟨c, lapAttach laps_df c.date, weatherAttach weather_df c.date⟩) := by
  by_cases hc : car_df = []
  · simp [merge_data, hc]
  · by_cases hl : laps_df = [] <;> by_cases hw : weather_df = [] <;>
      simp [merge_data, hc, hl, hw, lapAttach, weatherAttach, List.map_map, Function.comp]

/-! ### Claim C1 -/

/-- Concrete input refuting C1 as stated: one sample of driver 1 at time 100,
one lap of driver 1 starting at 0 and one lap of driver 2 starting at 50. -/
def c1car : List CarSample := [⟨9662, 1, 100, 0⟩]

def c1laps : List Lap := [⟨9662, 1, 1, 0, false, 90⟩, ⟨9662, 2, 5, 50, false, 91⟩]

theorem c1_eval : merge_data c1car c1laps [] =
    [⟨⟨9662, 1, 100, 0⟩, some ⟨5, false⟩, none⟩] := by
  simp only [merge_data, c1car, c1laps, asofBackward, List.mergeSort, List.filter,
    List.getLast?, List.map]
  norm_num
  intro h
  cases h

/-- C1 is false of the code: `merge_asof` is called without `by=` keys, so the
lap attributed to a fused row may belong to a different driver than the
sample. Here the row of driver 1 is attributed lap_number 5, which is not the
lap_number of any lap of driver 1 in the input. -/
theorem c1_counterexample :
    ∃ r ∈ merge_data c1car c1laps [], ∃ lc, r.lap = some lc ∧
      ∀ l ∈ c1laps, l.session_key = r.car.session_key →
        l.driver_number = r.car.driver_number → l.lap_number ≠ lc.lap_number := by
  rw [c1_eval]
  refine ⟨_, List.mem_singleton.mpr rfl, ⟨5, false⟩, rfl, ?_⟩
  decide

/-- C1 (amended): for every fused row carrying lap columns, those columns come
from a lap of the laps input whose `date_start` is ≤ the row's timestamp and
is maximal among ALL laps of the input with `date_start` ≤ the row's
timestamp — the join is not keyed by (session_key, driver_number), so the
maximality ranges over every driver's laps, not only the sample's. -/
theorem merge_attaches_latest_lap_overall (car_df : List CarSample)
    (laps_df : List Lap) (weather_df : List WeatherSample) :
    ∀ r ∈ merge_data car_df laps_df weather_df, ∀ lc, r.lap = some lc →
      ∃ l ∈ laps_df, l.lap_number = lc.lap_number ∧
        l.is_pit_out_lap = lc.is_pit_out_lap ∧ l.date_start ≤ r.car.date ∧
        ∀ l2 ∈ laps_df, l2.date_start ≤ r.car.date → l2.date_start ≤ l.date_start := by
  intro r hr lc hlc
  rw [merge_data_eq] at hr
  by_cases hc : car_df = []
  · rw [if_pos hc] at hr
    cases hr
  · rw [if_neg hc] at hr
    obtain ⟨c, _hcmem, hrow⟩ := List.mem_map.mp hr
    subst hrow
    simp only at hlc
    unfold lapAttach at hlc
    by_cases hl : laps_df = []
    · rw [if_pos hl] at hlc
      cases hlc
    · rw [if_neg hl] at hlc
      obtain ⟨l, hasof, hmk⟩ := Option.map_eq_some'.mp hlc
      obtain ⟨hlmem, hlle⟩ := asofBackward_mem hasof
      refine ⟨l, mem_mergeSort_key.mp hlmem, ?_, ?_, hlle, ?_⟩
      · rw [← hmk]
      · rw [← hmk]
      · intro l2 hl2 hle2
        have hpw : (laps_df.mergeSort
            (fun a b => decide (a.date_start ≤ b.date_start))).Pairwise
            (fun a b => a.date_start ≤ b.date_start) :=
          mergeSort_pairwise_key (fun l => l.date_start) laps_df
        have hpwf := hpw.sublist (List.filter_sublist
          (p := fun l => decide (l.date_start ≤ c.date)) _)
        have hl2f : l2 ∈ (laps_df.mergeSort
            (fun a b => decide (a.date_start ≤ b.date_start))).filter
            (fun l => decide (l.date_start ≤ c.date)) := by
          refine List.mem_filter.mpr ⟨mem_mergeSort_key.mpr hl2, by simpa using hle2⟩
        exact getLast?_is_ub hpwf hasof le_rfl l2 hl2f

theorem c1_witness :
    ∃ l ∈ c1laps, l.lap_number = 5 ∧ l.is_pit_out_lap = false ∧
      l.date_start ≤ 100 ∧
      ∀ l2 ∈ c1laps, l2.date_start ≤ 100 → l2.date_start ≤ l.date_start := by
  have hmem : (⟨⟨9662, 1, 100, 0⟩, some ⟨5, false⟩, none⟩ : FusedRow) ∈
      merge_data c1car c1laps [] := by
    rw [c1_eval]
    exact List.mem_singleton.mpr rfl
  simpa using merge_attaches_latest_lap_overall c1car c1laps [] _ hmem ⟨5, false⟩ rfl

/-! ### Claim C2 -/

/-- Concrete input refuting C2 as stated: one sample at time 0, before the
only lap of its driver, which starts at time 10. -/
def c2car : List CarSample := [⟨9662, 1, 0, 7⟩]

def c2laps : List Lap := [⟨9662, 1, 1, 10, false, 90⟩]

theorem c2_eval : merge_data c2car c2laps [] =
    [⟨⟨9662, 1, 0, 7⟩, none, none⟩] := by
  simp only [merge_data, c2car, c2laps, asofBackward, List.mergeSort, List.filter,
    List.getLast?, List.map]
  norm_num

/-- C2 is false of the code: `merge_asof` is a left join, so a sample whose
timestamp strictly precedes every lap `date_start` of its driver still appears
in the fused output (with empty lap columns); it is not dropped. -/
theorem c2_counterexample :
    (∀ l ∈ c2laps, l.driver_number = 1 → (0 : ℚ) < l.date_start) ∧
    ∃ r ∈ merge_data c2car c2laps [], r.car = ⟨9662, 1, 0, 7⟩ := by
  constructor
  · decide
  · rw [c2_eval]
    exact ⟨_, List.mem_singleton.mpr rfl, rfl⟩

/-- C2 (amended): `merge_data` drops no car sample at all — the output has
exactly one row per input sample — and a sample whose timestamp strictly
precedes every lap's `date_start` appears with empty (`none`) lap columns. -/
theorem merge_keeps_all_samples (car_df : List CarSample) (laps_df : List Lap)
    (weather_df : List WeatherSample) :
    (merge_data car_df laps_df weather_df).length = car_df.length ∧
    ∀ r ∈ merge_data car_df laps_df weather_df,
      (∀ l ∈ laps_df, r.car.date < l.date_start) → r.lap = none := by
  constructor
  · rw [merge_data_eq]
    by_cases hc : car_df = []
    · rw [if_pos hc, hc]
      rfl
    · rw [if_neg hc, List.length_map]
      exact (List.mergeSort_perm car_df _).length_eq
  · intro r hr hpre
    rw [merge_data_eq] at hr
    by_cases hc : car_df = []
    · rw [if_pos hc] at hr
      cases hr
    · rw [if_neg hc] at hr
      obtain ⟨c, _hcmem, hrow⟩ := List.mem_map.mp hr
      subst hrow
      simp only at hpre ⊢
      unfold lapAttach
      by_cases hl : laps_df = []
      · rw [if_pos hl]
      · rw [if_neg hl]
        have hnil : (laps_df.mergeSort
            (fun a b => decide (a.date_start ≤ b.date_start))).filter
            (fun l => decide (l.date_start ≤ c.date)) = [] := by
          rw [List.filter_eq_nil_iff]
          intro a ha
          simp only [decide_eq_true_eq, not_le]
          exact hpre a (mem_mergeSort_key.mp ha)
        unfold asofBackward
        rw [hnil]
        rfl

theorem c2_witness :
    (merge_data c2car c2laps []).length = c2car.length ∧
    FusedRow.lap ⟨⟨9662, 1, 0, 7⟩, none, none⟩ = none := by
  refine ⟨(merge_keeps_all_samples c2car c2laps []).1, ?_⟩
  refine (merge_keeps_all_samples c2car c2laps []).2 _ ?_ ?_
  · rw [c2_eval]
    exact List.mem_singleton.mpr rfl
  · decide

/-! ### Claim C10 -/

/-- C10 (confirmed): with a non-empty car input and an empty laps input,
`merge_data` returns exactly the car samples (a permutation — none dropped),
sorted by timestamp, with no lap columns attached (all `none`), and raises no
error. -/
theorem merge_empty_laps_no_drop (car_df : List CarSample)
    (weather_df : List WeatherSample) (h : car_df ≠ []) :
    ((merge_data car_df [] weather_df).map (fun r => r.car)).Perm car_df ∧
    (merge_data car_df [] weather_df).length = car_df.length ∧
    (∀ r ∈ merge_data car_df [] weather_df, r.lap = none) ∧
    (merge_data car_df [] weather_df).Pairwise
      (fun a b => a.car.date ≤ b.car.date) := by
  rw [merge_data_eq, if_neg h]
  refine ⟨?_, ?_, ?_, ?_⟩
  · rw [List.map_map]
    have hid : ((fun r : FusedRow => r.car) ∘
        (fun c : CarSample =>
          (⟨c, lapAttach [] c.date, weatherAttach weather_df c.date⟩ : FusedRow))) =
        id := rfl
    rw [hid, List.map_id]
    exact List.mergeSort_perm car_df _
  · rw [List.length_map]
    exact (List.mergeSort_perm car_df _).length_eq
  · intro r hr
    obtain ⟨c, _, hrow⟩ := List.mem_map.mp hr
    subst hrow
    simp [lapAttach]
  · refine List.Pairwise.map _ ?_ (mergeSort_pairwise_key (fun c => c.date) car_df)
    intro a b hab
    exact hab

def c10car : List CarSample := [⟨9662, 1, 5, 0⟩, ⟨9662, 1, 3, 0⟩]

def c10weather : List WeatherSample := [⟨4, 20, 30, 50, 0⟩]

theorem c10_witness :
    ((merge_data c10car [] c10weather).map (fun r => r.car)).Perm c10car ∧
    (merge_data c10car [] c10weather).length = c10car.length := by
  have h := merge_empty_laps_no_drop c10car c10weather (by decide)
  exact ⟨h.1, h.2.1⟩

/-! ## Fetch Client: `OpenF1Client.fetch` (src/ingestion/client.py)

The body of one HTTP attempt is modelled on an abstract response
`{status, json content-type header, parsable body, payload}`. Exceptions the
body can raise: `aiohttp.ClientResponseError` (raised by
`response.raise_for_status()` for EVERY status ≥ 400, including the explicit
429 and ≥ 500 branches), `aiohttp.ContentTypeError` for a success response
whose Content-Type header is not `application/json`, and `json.JSONDecodeError`
from `await response.json()` for a success response whose header is JSON but
whose body does not parse.  In `aiohttp`, `ContentTypeError` is a subclass of
`ClientResponseError` while `JSONDecodeError` is not — which is exactly what
the tenacity predicate `retry_if_exception_type(aiohttp.ClientResponseError)`
keys on. -/

/-- One abstract HTTP response to a fetch attempt.  `jsonContentType` is the
Content-Type header check; `parsableBody` is whether `await response.json()`
succeeds once the header check has passed. -/
structure HttpResponse where
  status : Nat
  jsonContentType : Bool
  parsableBody : Bool
  payload : List Nat
deriving DecidableEq, Repr

/-- The exceptions one attempt of `fetch` can raise.  `clientResponseError`
and `contentTypeError` are instances of `aiohttp.ClientResponseError`
(`ContentTypeError` subclasses it); `jsonDecodeError` models
`json.JSONDecodeError` from `response.json()`, which is NOT a
`ClientResponseError`. -/
inductive FetchErr where
  | clientResponseError (status : Nat)
  | contentTypeError
  | jsonDecodeError
deriving DecidableEq, Repr

/-- The tenacity predicate `retry_if_exception_type(aiohttp.ClientResponseError)`:
an exception is retried iff it is an instance of `ClientResponseError` — true
for `clientResponseError` and (by subclassing) `contentTypeError`, false for
`jsonDecodeError`. -/
def retriedByTenacity : FetchErr → Bool
  | FetchErr.clientResponseError _ => true
  | FetchErr.contentTypeError => true
  | FetchErr.jsonDecodeError => false

/-- One attempt of the body of `OpenF1Client.fetch`: the 429 branch and the
≥ 500 branch call `raise_for_status()`, then `raise_for_status()` runs
unconditionally (raising for every status ≥ 400), then the Content-Type check
raises `ContentTypeError`, then `await response.json()` either parses the
body or raises `JSONDecodeError`. -/
def fetchAttempt (r : HttpResponse) : Except FetchErr (List Nat) :=
  if r.status = 429 then Except.error (FetchErr.clientResponseError r.status)
  else if 500 ≤ r.status then Except.error (FetchErr.clientResponseError r.status)
  else if 400 ≤ r.status then Except.error (FetchErr.clientResponseError r.status)
  else if ¬ r.jsonContentType then Except.error FetchErr.contentTypeError
  else if ¬ r.parsableBody then Except.error FetchErr.jsonDecodeError
  else Except.ok r.payload

/-- Possible outcomes of the retry-wrapped `fetch`:
success, tenacity's `RetryError` after the attempt ceiling (the distinct
"exhausted retries" outcome), or an immediately re-raised non-retryable
exception. -/
inductive FetchOutcome where
  | success (payload : List Nat)
  | retryExhausted (last : FetchErr)
  | failedImmediately (e : FetchErr)
deriving DecidableEq, Repr

/-- The tenacity loop of `@retry(retry=retry_if_exception_type(ClientResponseError),
stop=stop_after_attempt(5), ...)` around `fetchAttempt`: `k` attempts already
made, `fuel` attempts still allowed.  A non-retryable exception propagates at
once; otherwise after the 5th failed attempt tenacity raises `RetryError`.
The wait-time backoff only delays retries and is irrelevant to the outcome,
so it is not modelled. -/
def tenacityLoop (responses : Nat → HttpResponse) : Nat → Nat → FetchOutcome × Nat
  | k, 0 => (FetchOutcome.retryExhausted FetchErr.contentTypeError, k)
  | k, fuel + 1 =>
    match fetchAttempt (responses k) with
    | Except.ok p => (FetchOutcome.success p, k + 1)
    | Except.error e =>
      if retriedByTenacity e then
        if fuel = 0 then (FetchOutcome.retryExhausted e, k + 1)
        else tenacityLoop responses (k + 1) fuel
      else (FetchOutcome.failedImmediately e, k + 1)

/-- `OpenF1Client.fetch` on a stream of responses (`responses n` answers the
`n`-th attempt, 0-based): at most 5 total attempts.  Returns the outcome and
the number of attempts actually made. -/
def fetch (responses : Nat → HttpResponse) : FetchOutcome × Nat :=
  tenacityLoop responses 0 5

/-! ### Helper lemmas about the retry loop -/

/-- One unfolding of the loop on a failed attempt whose exception tenacity
retries, with fuel remaining. -/
theorem tenacityLoop_error_step (responses : Nat → HttpResponse) (k fuel : Nat)
    (e : FetchErr) (hA : fetchAttempt (responses k) = Except.error e)
    (hr : retriedByTenacity e = true) (hfuel : fuel ≠ 0) :
    tenacityLoop responses k (fuel + 1) = tenacityLoop responses (k + 1) fuel := by
  simp [tenacityLoop, hA, hr, hfuel]

/-- One unfolding of the loop on a failed attempt whose exception tenacity
does not retry: it propagates at once, whatever fuel remains. -/
theorem tenacityLoop_nonretryable (responses : Nat → HttpResponse)
    (k fuel : Nat) (e : FetchErr)
    (hA : fetchAttempt (responses k) = Except.error e)
    (hr : retriedByTenacity e = false) :
    tenacityLoop responses k (fuel + 1) =
      (FetchOutcome.failedImmediately e, k + 1) := by
  simp [tenacityLoop, hA, hr]

/-- With at least one unit of fuel, the loop performs at least one attempt. -/
theorem tenacityLoop_attempts_lb (responses : Nat → HttpResponse) :
    ∀ fuel k, 1 ≤ fuel → k + 1 ≤ (tenacityLoop responses k fuel).2 := by
  intro fuel
  induction fuel with
  | zero =>
    intro k h
    cases h
  | succ n ih =>
    intro k _
    simp only [tenacityLoop]
    cases hA : fetchAttempt (responses k) with
    | ok p => simp
    | error err =>
      dsimp only
      by_cases hr : retriedByTenacity err = true
      · rw [if_pos hr]
        by_cases hn : n = 0
        · rw [if_pos hn]
        · rw [if_neg hn]
          have := ih (k + 1) (Nat.one_le_iff_ne_zero.mpr hn)
          omega
      · rw [if_neg hr]

/-! ### Claim C5 -/

/-- C5 (confirmed): when every response is HTTP 429, `fetch` makes exactly 5
attempts and ends in tenacity's distinct `RetryError` ("exhausted retries")
outcome — it never makes a 6th attempt. -/
theorem fetch_429_exhausts_after_five (responses : Nat → HttpResponse)
    (h : ∀ n, (responses n).status = 429) :
    fetch responses =
      (FetchOutcome.retryExhausted (FetchErr.clientResponseError 429), 5) := by
  have ha : ∀ k, fetchAttempt (responses k) =
      Except.error (FetchErr.clientResponseError 429) := by
    intro k
    have hk := h k
    simp [fetchAttempt, hk]
  have s0 : tenacityLoop responses 0 5 = tenacityLoop responses 1 4 :=
    tenacityLoop_error_step responses 0 4 _ (ha 0) rfl (by decide)
  have s1 : tenacityLoop responses 1 4 = tenacityLoop responses 2 3 :=
    tenacityLoop_error_step responses 1 3 _ (ha 1) rfl (by decide)
  have s2 : tenacityLoop responses 2 3 = tenacityLoop responses 3 2 :=
    tenacityLoop_error_step responses 2 2 _ (ha 2) rfl (by decide)
  have s3 : tenacityLoop responses 3 2 = tenacityLoop responses 4 1 :=
    tenacityLoop_error_step responses 3 1 _ (ha 3) rfl (by decide)
  have s4 : tenacityLoop responses 4 1 =
      (FetchOutcome.retryExhausted (FetchErr.clientResponseError 429), 5) := by
    simp [tenacityLoop, ha 4, retriedByTenacity]
  unfold fetch
  rw [s0, s1, s2, s3, s4]

/-- Concrete always-429 response stream. -/
def alwaysRateLimited : Nat → HttpResponse := fun _ => ⟨429, true, true, []⟩

theorem fetch_429_witness :
    fetch alwaysRateLimited =
      (FetchOutcome.retryExhausted (FetchErr.clientResponseError 429), 5) :=
  fetch_429_exhausts_after_five alwaysRateLimited (fun _ => rfl)

/-! ### Claim C4 -/

/-- A request that always answers 404 (neither 429 nor 5xx). -/
def alwaysNotFound : Nat → HttpResponse := fun _ => ⟨404, true, true, []⟩

/-- A request whose first response is a 200 with a non-JSON content type and
whose second response is a well-formed success. -/
def malformedThenOk : Nat → HttpResponse :=
  fun n => if n = 0 then ⟨200, false, true, []⟩ else ⟨200, true, true, [1]⟩

/-- A request whose response is a 200 with an `application/json` header but a
body that fails to parse. -/
def parseFailure : Nat → HttpResponse := fun _ => ⟨200, true, false, []⟩

/-- C4 is false of the code: a 404 response raises `ClientResponseError` via
the unconditional `raise_for_status()`, and a wrong content type raises
`ContentTypeError`, a subclass of `ClientResponseError` — both satisfy the
tenacity retry predicate. So a constant-404 request is attempted 5 times (not
failed immediately after 1), and a malformed first response is retried and the
second attempt's payload returned. -/
theorem c4_counterexample :
    fetch alwaysNotFound =
      (FetchOutcome.retryExhausted (FetchErr.clientResponseError 404), 5) ∧
    (fetch alwaysNotFound).2 ≠ 1 ∧
    fetch malformedThenOk = (FetchOutcome.success [1], 2) := by
  refine ⟨by decide, by decide, by decide⟩

/-- C4 (amended): the immediate-failure boundary sits elsewhere than the claim
puts it.  Every non-success status — 429, 5xx, and equally any other such as
404, via the unconditional `raise_for_status()` — and every success response
with a non-JSON Content-Type header raises an exception of the retried
`ClientResponseError` family (so such a response is retried: after any
retryable first-attempt error a second attempt is made, up to the 5-attempt
ceiling).  The one immediately-failing case is a success response whose
header is `application/json` but whose body fails to parse: `response.json()`
raises `json.JSONDecodeError`, which is not a `ClientResponseError`, so
`fetch` fails at once after exactly one attempt. -/
theorem fetch_retry_boundary (responses : Nat → HttpResponse)
    (r : HttpResponse) :
    ((400 ≤ r.status ∨ r.jsonContentType = false) →
      ∃ e, fetchAttempt r = Except.error e ∧ retriedByTenacity e = true) ∧
    (∀ e, fetchAttempt (responses 0) = Except.error e →
      retriedByTenacity e = true → 2 ≤ (fetch responses).2) ∧
    ((responses 0).status < 400 → (responses 0).jsonContentType = true →
      (responses 0).parsableBody = false →
      fetch responses =
        (FetchOutcome.failedImmediately FetchErr.jsonDecodeError, 1)) := by
  refine ⟨?_, ?_, ?_⟩
  · intro h
    by_cases h1 : r.status = 429
    · exact ⟨FetchErr.clientResponseError r.status,
        by simp [fetchAttempt, h1], rfl⟩
    · by_cases h2 : 500 ≤ r.status
      · exact ⟨FetchErr.clientResponseError r.status,
          by simp [fetchAttempt, h1, h2], rfl⟩
      · by_cases h3 : 400 ≤ r.status
        · exact ⟨FetchErr.clientResponseError r.status,
            by simp [fetchAttempt, h1, h2, h3], rfl⟩
        · have hj : r.jsonContentType = false := by
            rcases h with hge | hjf
            · exact absurd hge h3
            · exact hjf
          exact ⟨FetchErr.contentTypeError,
            by simp [fetchAttempt, h1, h2, h3, hj], rfl⟩
  · intro e hA hr
    unfold fetch
    rw [tenacityLoop_error_step responses 0 4 e hA hr (by decide)]
    exact tenacityLoop_attempts_lb responses 4 1 (by decide)
  · intro hs hj hp
    have h1 : (responses 0).status ≠ 429 := by omega
    have h2 : ¬ 500 ≤ (responses 0).status := by omega
    have h3 : ¬ 400 ≤ (responses 0).status := by omega
    have hA : fetchAttempt (responses 0) =
        Except.error FetchErr.jsonDecodeError := by
      simp [fetchAttempt, h1, h2, h3, hj, hp]
    exact tenacityLoop_nonretryable responses 0 4 _ hA rfl

theorem c4_amended_witness :
    2 ≤ (fetch alwaysNotFound).2 ∧
    fetch parseFailure =
      (FetchOutcome.failedImmediately FetchErr.jsonDecodeError, 1) := by
  refine ⟨?_, ?_⟩
  · exact (fetch_retry_boundary alwaysNotFound (alwaysNotFound 0)).2.1
      (FetchErr.clientResponseError 404) rfl rfl
  · exact (fetch_retry_boundary parseFailure (parseFailure 0)).2.2
      (by decide) rfl rfl

/-! ## Ingestion Coordinator: `process_session` (src/ingestion/ingest.py)

The coordinator's world is modelled explicitly: `Remote` is the (unchanging)
remote data a fetch would return, `Store` is the persisted artifact directory
plus the durable state document, `SessionState` is the in-memory per-session
slice of the ingestion state.  One Python subtlety is modelled faithfully with
`PyVal`: the state's driver list is extended with `int(x)` (JSON numbers),
while the skip check tests `str(driver) in logged_drivers` — a Python `str`
never equals a Python `int`. -/

/-- A Python value as stored in the ingestion-state driver list or used in
the membership test: an int or a str.  Distinct constructors are never equal,
exactly as `55 == "55"` is `False` in Python. -/
inductive PyVal where
  | pyInt (n : Nat)
  | pyStr (s : String)
deriving DecidableEq, Repr

/-- The per-session ingestion state `{laps: bool, weather: bool, drivers: [...]}`. -/
structure SessionState where
  laps : Bool
  weather : Bool
  drivers : List PyVal
deriving DecidableEq, Repr

/-- The persisted artifacts: `laps_{sk}.parquet`, `weather_{sk}.parquet`, one
`car_{sk}_{driver}.parquet` per driver, and the durable ingestion-state file. -/
structure Store where
  lapsFile : Option (List Lap)
  weatherFile : Option (List WeatherSample)
  carFiles : List (Nat × List CarSample)
  stateFile : Option SessionState
deriving DecidableEq, Repr

/-- What the remote API would currently return for this session. -/
structure Remote where
  laps : List Lap
  weather : List WeatherSample
  car : Nat → List CarSample

/-- One network fetch issued by the coordinator. -/
inductive FetchCall where
  | laps
  | weather
  | car (driver : Nat)
deriving DecidableEq, Repr

/-- Write (or overwrite) one per-driver telemetry parquet file. -/
def setCarFile (files : List (Nat × List CarSample)) (d : Nat)
    (data : List CarSample) : List (Nat × List CarSample) :=
  if (files.map Prod.fst).contains d then
    files.map (fun p => if p.1 = d then (d, data) else p)
  else files ++ [(d, data)]

/-- Shallow embedding of `process_session(client, session_key, state)`.
Returns the list of network fetches issued, the resulting store and the
resulting in-memory session state.  Structure follows the source: laps are
skipped only when the state flag is set AND the artifact exists (else fetched,
and persisted + state saved only when non-empty); weather likewise; then, when
the laps table is non-empty, each driver of the laps table that fails the
(ill-typed) `str(driver) in logged_drivers` check is fetched concurrently,
non-empty results are persisted, and the newly fetched drivers are appended to
the state (as ints) in one batch. -/
def process_session (remote : Remote) (store : Store) (st : SessionState) :
    List FetchCall × Store × SessionState :=
  let step1 : List FetchCall × Store × SessionState × List Lap :=
    if st.laps ∧ store.lapsFile.isSome then
      ([], store, st, store.lapsFile.getD [])
    else
      if remote.laps ≠ [] then
        let st1 : SessionState := ⟨true, st.weather, st.drivers⟩
        ([FetchCall.laps],
          ⟨some remote.laps, store.weatherFile, store.carFiles, some st1⟩,
          st1, remote.laps)
      else ([FetchCall.laps], store, st, remote.laps)
  let calls1 := step1.1
  let store1 := step1.2.1
  let st1 := step1.2.2.1
  let laps_df := step1.2.2.2
  let step2 : List FetchCall × Store × SessionState :=
    if st1.weather ∧ store1.weatherFile.isSome then
      ([], store1, st1)
    else
      if remote.weather ≠ [] then
        let st2 : SessionState := ⟨st1.laps, true, st1.drivers⟩
        ([FetchCall.weather],
          ⟨store1.lapsFile, some remote.weather, store1.carFiles, some st2⟩, st2)
      else ([FetchCall.weather], store1, st1)
  let calls2 := step2.1
  let store2 := step2.2.1
  let st2 := step2.2.2
  if laps_df = [] then (calls1 ++ calls2, store2, st2)
  else
    let drivers := (laps_df.map (fun l => l.driver_number)).dedup
    let pending := drivers.filter
      (fun d => decide (PyVal.pyStr (toString d) ∉ st2.drivers))
    if pending = [] then (calls1 ++ calls2, store2, st2)
    else
      let calls3 := pending.map FetchCall.car
      let newly := pending.filter (fun d => decide (remote.car d ≠ []))
      let carFiles3 := newly.foldl
        (fun acc d => setCarFile acc d (remote.car d)) store2.carFiles
      if newly ≠ [] then
        let st3 : SessionState :=
          ⟨st2.laps, st2.weather, st2.drivers ++ newly.map PyVal.pyInt⟩
        (calls1 ++ calls2 ++ calls3,
          ⟨store2.lapsFile, store2.weatherFile, carFiles3, some st3⟩, st3)
      else
        (calls1 ++ calls2 ++ calls3,
          ⟨store2.lapsFile, store2.weatherFile, carFiles3, store2.stateFile⟩, st2)

/-! ### Claim C3 -/

/-- A fully-ingested world for session 9662 with one driver (55): laps and
weather flagged and persisted, driver 55's telemetry persisted and recorded in
the state (as the int the code stores), and the remote unchanged. -/
def c3laps : List Lap := [⟨9662, 55, 1, 0, false, 90⟩]

def c3weather : List WeatherSample := [⟨0, 20, 30, 50, 0⟩]

def c3car55 : List CarSample := [⟨9662, 55, 1, 280⟩]

def c3state : SessionState := ⟨true, true, [PyVal.pyInt 55]⟩

def c3store : Store := ⟨some c3laps, some c3weather, [(55, c3car55)], some c3state⟩

def c3remote : Remote := ⟨c3laps, c3weather, fun d => if d = 55 then c3car55 else []⟩

/-- C3 fails on the code: on a second run over a fully-ingested session the
laps and weather fetches are indeed skipped, but the driver skip check
compares `str(driver)` against a set of ints, which never matches, so driver
55's telemetry is re-fetched and `55` is appended to the state's driver list a
second time — the run issues a network fetch and changes the IngestionState
(and durably rewrites it), contradicting idempotence. -/
theorem process_session_refetches_drivers :
    (process_session c3remote c3store c3state).1 = [FetchCall.car 55] ∧
    (process_session c3remote c3store c3state).2.2 ≠ c3state ∧
    (process_session c3remote c3store c3state).2.2.drivers =
      [PyVal.pyInt 55, PyVal.pyInt 55] := by
  refine ⟨by decide, by decide, by decide⟩

/-! ## Feature Derivation: `smooth_telemetry` (src/ingestion/cleaning.py) -/

/-- The Savitzky–Golay smoothing weights for window length 11 and polynomial
order 3, times their common denominator 429: the convolution applied at
interior points. -/
def sgCentralWeights : List ℚ := [-36, 9, 44, 69, 84, 89, 84, 69, 44, 9, -36]

/-- Interior smoothed value: the weight/sample dot product over an 11-sample
window, divided by 429. -/
def sgCentral (window : List ℚ) : ℚ :=
  ((sgCentralWeights.zip window).map (fun p => p.1 * p.2)).sum / 429

/-- The least-squares cubic fitted to an 11-sample window (samples at
positions 0..10), evaluated at position `i`: computed by projection on the
discrete orthogonal (Gram) basis `1, t, t² − 10, t³ − (89/5)·t` over
`t = i − 5 ∈ {−5,…,5}` (squared norms 11, 110, 858, 30888/5).  This is the
edge rule of `scipy.signal.savgol_filter` in its default `interp` mode. -/
def sgFitEval (window : List ℚ) (i : ℚ) : ℚ :=
  let t := i - 5
  let ts : List ℚ := [-5, -4, -3, -2, -1, 0, 1, 2, 3, 4, 5]
  let dot : (ℚ → ℚ) → ℚ := fun f => ((ts.zip window).map (fun p => f p.1 * p.2)).sum
  dot (fun _ => 1) / 11 + (dot (fun u => u) / 110) * t +
    (dot (fun u => u ^ 2 - 10) / 858) * (t ^ 2 - 10) +
    (dot (fun u => u ^ 3 - (89 / 5) * u) / (30888 / 5)) * (t ^ 3 - (89 / 5) * t)

/-- `scipy.signal.savgol_filter(xs, 11, 3)` (default `mode='interp'`), defined
for `11 ≤ xs.length` (scipy raises otherwise, and the embedding below only
applies it to longer inputs): interior positions `5 ≤ i ≤ n − 6` get the
central convolution of the surrounding 11 samples; the first five and the last
five positions evaluate the least-squares cubic fitted to the first resp. last
11 samples. -/
def savgolFilter11_3 (xs : List ℚ) : List ℚ :=
  let n := xs.length
  (List.range n).map (fun i =>
    if 5 ≤ i ∧ i + 6 ≤ n then sgCentral ((xs.drop (i - 5)).take 11)
    else if i < 5 then sgFitEval (xs.take 11) (i : ℚ)
    else sgFitEval (xs.drop (n - 11)) ((i : ℚ) - ((n : ℚ) - 11)))

/-- The telemetry frame columns `smooth_telemetry` targets (`['speed', 'rpm',
'throttle', 'brake']`), each `none` when absent from the DataFrame; `nrows` is
`len(df)`, the row count shared by every present column. -/
structure TelemetryFrame where
  nrows : Nat
  speed : Option (List ℚ)
  rpm : Option (List ℚ)
  throttle : Option (List ℚ)
  brake : Option (List ℚ)
deriving DecidableEq, Repr

/-- One channel's `*_smooth` column with the default `window_length=11`:
the source guards the filter with `len(df_clean) > window_length` and copies
the channel verbatim otherwise. -/
def smoothChannel (nrows : Nat) (xs : List ℚ) : List ℚ :=
  if 11 < nrows then savgolFilter11_3 xs else xs

/-- The frame returned by `smooth_telemetry`: the original columns plus one
`*_smooth` column parallel to each present channel. -/
structure SmoothedFrame where
  base : TelemetryFrame
  speed_smooth : Option (List ℚ)
  rpm_smooth : Option (List ℚ)
  throttle_smooth : Option (List ℚ)
  brake_smooth : Option (List ℚ)
deriving DecidableEq, Repr

/-- Shallow embedding of `smooth_telemetry(df)` at the default
`window_length=11, polyorder=3`. -/
def smooth_telemetry (df : TelemetryFrame) : SmoothedFrame :=
  ⟨df, df.speed.map (smoothChannel df.nrows), df.rpm.map (smoothChannel df.nrows),
    df.throttle.map (smoothChannel df.nrows), df.brake.map (smoothChannel df.nrows)⟩

/-! ### Claim C9 -/

/-- An 11-sample speed channel: an impulse at the first sample. -/
def c9speed : List ℚ := 1 :: List.replicate 10 0

def c9frame : TelemetryFrame := ⟨11, some c9speed, none, none, none⟩

/-- C9 is false of the code at the boundary: with exactly 11 samples the claim
says the channel is smoothed (11 is not fewer than the window length), but the
guard `len(df_clean) > window_length` copies it verbatim, and the
Savitzky–Golay filter of this channel differs from the channel. -/
theorem c9_counterexample :
    c9speed.length = 11 ∧
    (smooth_telemetry c9frame).speed_smooth = some c9speed ∧
    (smooth_telemetry c9frame).speed_smooth ≠ some (savgolFilter11_3 c9speed) := by
  have hne : savgolFilter11_3 c9speed ≠ c9speed := by
    simp only [savgolFilter11_3, c9speed, sgCentral, sgFitEval, sgCentralWeights,
      List.replicate, List.length_cons, List.length_replicate]
    norm_num [List.range_succ, List.zip, List.zipWith]
  refine ⟨by decide, rfl, ?_⟩
  intro hcontra
  have h2 : (some c9speed : Option (List ℚ)) = some (savgolFilter11_3 c9speed) :=
    hcontra
  exact hne (Option.some.inj h2).symm

/-- C9 (amended): each of the four channels present in the frame gets a
parallel `*_smooth` column; it is a verbatim copy whenever the frame has AT
MOST 11 rows (including the boundary case of exactly 11 rows), and the
Savitzky–Golay filter (window 11, order 3) of the channel whenever the frame
has strictly more than 11 rows. -/
theorem smooth_telemetry_channels (df : TelemetryFrame) (xs : List ℚ) :
    (df.nrows ≤ 11 →
      (df.speed = some xs → (smooth_telemetry df).speed_smooth = some xs) ∧
      (df.rpm = some xs → (smooth_telemetry df).rpm_smooth = some xs) ∧
      (df.throttle = some xs → (smooth_telemetry df).throttle_smooth = some xs) ∧
      (df.brake = some xs → (smooth_telemetry df).brake_smooth = some xs)) ∧
    (11 < df.nrows →
      (df.speed = some xs →
        (smooth_telemetry df).speed_smooth = some (savgolFilter11_3 xs)) ∧
      (df.rpm = some xs →
        (smooth_telemetry df).rpm_smooth = some (savgolFilter11_3 xs)) ∧
      (df.throttle = some xs →
        (smooth_telemetry df).throttle_smooth = some (savgolFilter11_3 xs)) ∧
      (df.brake = some xs →
        (smooth_telemetry df).brake_smooth = some (savgolFilter11_3 xs))) := by
  constructor
  · intro h
    refine ⟨?_, ?_, ?_, ?_⟩ <;> intro hx <;>
      simp [smooth_telemetry, hx, smoothChannel, Nat.not_lt.mpr h]
  · intro h
    refine ⟨?_, ?_, ?_, ?_⟩ <;> intro hx <;>
      simp [smooth_telemetry, hx, smoothChannel, h]

/-- A 12-sample channel (strictly more than the window length). -/
def c9speed12 : List ℚ := 1 :: List.replicate 11 0

def c9frame12 : TelemetryFrame := ⟨12, some c9speed12, none, none, none⟩

theorem c9_amended_witness :
    (smooth_telemetry c9frame).speed_smooth = some c9speed ∧
    (smooth_telemetry c9frame12).speed_smooth = some (savgolFilter11_3 c9speed12) := by
  constructor
  · exact ((smooth_telemetry_channels c9frame c9speed).1 (by decide)).1 rfl
  · exact ((smooth_telemetry_channels c9frame12 c9speed12).2 (by decide)).1 rfl

/-! ## Feature Derivation: `calculate_tire_age_adjusted` (src/ingestion/cleaning.py)

Modelled for the rows the claim quantifies over: rows carrying a stint
identifier (`stnt`, already present as a column) and a numeric `lap_number`,
with the `track_temperature` column present (so the dynamic per-row
temperature is used). -/

/-- One merged-frame row as `calculate_tire_age_adjusted` reads it. -/
structure FeatureRow where
  stnt : Nat
  lap_number : ℚ
  track_temperature : ℚ
deriving DecidableEq, Repr

/-- A row extended with the two derived columns. -/
structure FeatureRowOut where
  row : FeatureRow
  laps_since_pit : ℚ
  tire_age_adj : ℚ
deriving DecidableEq, Repr

/-- `x.min()` of the `lap_number` series of the stint group of `s` (`getD 0`
is never exercised on rows of the frame, whose own stint group is
non-empty). -/
def stintMinLap (df : List FeatureRow) (s : Nat) : ℚ :=
  (((df.filter (fun r => r.stnt = s)).map (fun r => r.lap_number)).min?).getD 0

/-- The adjustment `age * (1 + 0.05 * (track_temp - 30))` from the source. -/
def tireAgeAdjFormula (age temp : ℚ) : ℚ :=
  age * (1 + (1 / 20) * (temp - 30))

/-- Shallow embedding of `calculate_tire_age_adjusted(df)` on rows with the
`stnt` column present: `laps_since_pit = lap_number - groupmin(lap_number)`
per `stnt` group, `tire_age_adj = laps_since_pit * (1 + 0.05 * (track_temperature - 30))`. -/
def calculate_tire_age_adjusted (df : List FeatureRow) : List FeatureRowOut :=
  df.map (fun r =>
    let lsp := r.lap_number - stintMinLap df r.stnt
    ⟨r, lsp, tireAgeAdjFormula lsp r.track_temperature⟩)

/-! ### Claim C8 -/

/-- C8 (confirmed): in every output row, `laps_since_pit` is the row's lap
number minus the minimum lap number over the rows of the same stint (a value
attained by some row of the stint and a lower bound of all of them), and
`tire_age_adj` is `laps_since_pit * (1 + 0.05*(track_temperature - 30))`;
in particular raw age 3 at track temperature 40 yields adjusted age 9/2. -/
theorem tire_age_spec (df : List FeatureRow) :
    tireAgeAdjFormula 3 40 = 9 / 2 ∧
    ∀ o ∈ calculate_tire_age_adjusted df,
      (∃ g ∈ df, g.stnt = o.row.stnt ∧ g.lap_number = stintMinLap df o.row.stnt) ∧
      (∀ g ∈ df, g.stnt = o.row.stnt → stintMinLap df o.row.stnt ≤ g.lap_number) ∧
      o.laps_since_pit = o.row.lap_number - stintMinLap df o.row.stnt ∧
      o.tire_age_adj =
        o.laps_since_pit * (1 + (1 / 20) * (o.row.track_temperature - 30)) := by
  constructor
  · norm_num [tireAgeAdjFormula]
  · intro o ho
    obtain ⟨r, hr, hro⟩ := List.mem_map.mp ho
    subst hro
    have hgrp : r ∈ df.filter (fun x => decide (x.stnt = r.stnt)) :=
      List.mem_filter.mpr ⟨hr, by simp⟩
    have hmem : r.lap_number ∈
        (df.filter (fun x => decide (x.stnt = r.stnt))).map
          (fun x => x.lap_number) :=
      List.mem_map.mpr ⟨r, hgrp, rfl⟩
    obtain ⟨m, hm⟩ : ∃ m,
        ((df.filter (fun x => decide (x.stnt = r.stnt))).map
          (fun x => x.lap_number)).min? = some m := by
      cases hl : (df.filter (fun x => decide (x.stnt = r.stnt))).map
          (fun x => x.lap_number) with
      | nil =>
        rw [hl] at hmem
        cases hmem
      | cons a as => exact ⟨as.foldl min a, rfl⟩
    have hiff := @List.min?_eq_some_iff ℚ m _ _ ⟨fun h1 h2 => le_antisymm h1 h2⟩
      (fun a => le_refl a) (fun a b => min_choice a b)
      (fun a b c => le_min_iff)
      ((df.filter (fun x => decide (x.stnt = r.stnt))).map (fun x => x.lap_number))
    obtain ⟨hmmem, hmlb⟩ := hiff.mp hm
    have hsm : stintMinLap df r.stnt = m := by
      unfold stintMinLap
      rw [hm]
      rfl
    refine ⟨?_, ?_, ?_, ?_⟩
    · obtain ⟨g, hgmem, hgl⟩ := List.mem_map.mp hmmem
      refine ⟨g, List.mem_filter.mp hgmem |>.1, ?_, by rw [hgl, hsm]⟩
      have := List.mem_filter.mp hgmem |>.2
      simpa using this
    · intro g hg hgs
      rw [hsm]
      exact hmlb g.lap_number
        (List.mem_map.mpr ⟨g, List.mem_filter.mpr ⟨hg, by simpa using hgs⟩, rfl⟩)
    · rfl
    · rfl

/-- Two laps of one stint: lap 5 (stint minimum) and lap 8 at track
temperature 40. -/
def c8df : List FeatureRow := [⟨1, 5, 40⟩, ⟨1, 8, 40⟩]

theorem c8_eval : calculate_tire_age_adjusted c8df =
    [⟨⟨1, 5, 40⟩, 0, 0⟩, ⟨⟨1, 8, 40⟩, 3, 9 / 2⟩] := by
  norm_num [calculate_tire_age_adjusted, c8df, stintMinLap, tireAgeAdjFormula,
    List.min?, List.filter, min_def]

theorem c8_witness :
    tireAgeAdjFormula 3 40 = 9 / 2 ∧
    FeatureRowOut.laps_since_pit ⟨⟨1, 8, 40⟩, 3, 9 / 2⟩ =
      8 - stintMinLap c8df 1 ∧
    FeatureRowOut.tire_age_adj ⟨⟨1, 8, 40⟩, 3, 9 / 2⟩ =
      3 * (1 + (1 / 20) * (40 - 30)) := by
  have h := tire_age_spec c8df
  have hmem : (⟨⟨1, 8, 40⟩, 3, 9 / 2⟩ : FeatureRowOut) ∈
      calculate_tire_age_adjusted c8df := by
    rw [c8_eval]
    exact List.mem_cons.mpr (Or.inr (List.mem_singleton.mpr rfl))
  have h2 := h.2 _ hmem
  exact ⟨h.1, h2.2.2.1, by simpa using h2.2.2.2⟩

/-! ## Survival Estimator: `calculate_tire_life_probability`
(src/ingestion/strategy_processor.py)

Input: historical per-lap rows with driver, stint, lap number, circuit,
compound, tire age and lap duration.  The function sorts by (driver_id, stint,
lap_number), computes per-(driver_id, stint) failure flags from a trailing
rolling pace baseline, then builds one survival curve per (circuit_id,
compound) group.  `pandas.groupby` on the sorted frame yields contiguous runs
of equal keys, modelled with `List.splitBy`; the group-iteration order (pandas
sorts group keys) only permutes whole blocks of output rows and the theorems
below only ever inspect one (circuit, compound) block, extracted by
filtering. -/

/-- One historical lap row as the Survival Estimator reads it. -/
structure StrategyLap where
  driver_id : Nat
  stint : Nat
  lap_number : Nat
  circuit_id : String
  compound : String
  tire_age : Nat
  lap_duration : ℚ
deriving DecidableEq, Repr

/-- The `sort_values(['driver_id', 'stint', 'lap_number'])` comparison. -/
def stratLapLE (a b : StrategyLap) : Bool :=
  decide (a.driver_id < b.driver_id ∨ (a.driver_id = b.driver_id ∧
    (a.stint < b.stint ∨ (a.stint = b.stint ∧ a.lap_number ≤ b.lap_number))))

/-- `Series.rolling(window=3, min_periods=1).mean()`: entry `j` is the mean of
the last `min (j+1) 3` entries ending at `j`. -/
def rollingMean3 (xs : List ℚ) : List ℚ :=
  (List.range xs.length).map (fun j =>
    let m := min (j + 1) 3
    ((xs.drop (j + 1 - m)).take m).sum / (m : ℚ))

/-- `Series.shift(1)`: the first entry becomes missing (NaN), the rest move
down one position. -/
def shift1 (xs : List ℚ) : List (Option ℚ) :=
  none :: (xs.dropLast.map some)

/-- The per-group failure flags: `is_failure = (lap_duration - rolling_pace) > 1.5`
with `rolling_pace = rolling(3, min_periods=1).mean().shift(1)`; a NaN
baseline compares as False. -/
def failureFlags (ds : List ℚ) : List Bool :=
  ((shift1 (rollingMean3 ds)).zip ds).map (fun p =>
    match p.1 with
    | none => false
    | some b => decide (p.2 - b > 3 / 2))

/-- The `groupby(['driver_id', 'stint'])` key. -/
def stratKey (l : StrategyLap) : Nat × Nat := (l.driver_id, l.stint)

/-- The sorted frame split into its contiguous (driver_id, stint) groups. -/
def sortedGroups (laps : List StrategyLap) : List (List StrategyLap) :=
  (laps.mergeSort stratLapLE).splitBy (fun a b => stratKey a = stratKey b)

/-- The sorted frame with the `is_failure` column: the groupby-transform
computes each group's flags from that group's durations and aligns them back
onto the group's rows. -/
def addFailureFlags (laps : List StrategyLap) : List (StrategyLap × Bool) :=
  (sortedGroups laps).flatMap
    (fun g => g.zip (failureFlags (g.map (fun l => l.lap_duration))))

/-- `age_counts.loc[age, 'count']`: laps of the group at this tire age
("at risk"). -/
def atRisk (g : List (StrategyLap × Bool)) (a : Nat) : Nat :=
  (g.filter (fun p => p.1.tire_age = a)).length

/-- `age_counts.loc[age, 'sum']`: failure events of the group at this age. -/
def failuresAt (g : List (StrategyLap × Bool)) (a : Nat) : Nat :=
  (g.filter (fun p => p.1.tire_age = a ∧ p.2)).length

/-- `int(comp_df['tire_age'].max())` (0 on an empty group; the loop below is
then empty, like the source's `range(1, ...)`). -/
def maxAge (g : List (StrategyLap × Bool)) : Nat :=
  (g.map (fun p => p.1.tire_age)).foldl max 0

/-- One output row of the survival look-up table. -/
structure SurvivalRow where
  circuit_id : String
  compound : String
  tire_age : Nat
  prob_survival : ℚ
deriving DecidableEq, Repr

/-- The probability update of one age iteration: when the age occurs in the
group (equivalently `age in age_counts.index`, equivalently `atRisk > 0`) the
survival probability is multiplied by `(1 - failures/at_risk)`; otherwise it
carries over unchanged. -/
def nextProb (g : List (StrategyLap × Bool)) (p : ℚ) (a : Nat) : ℚ :=
  if 0 < atRisk g a then p * (1 - (failuresAt g a : ℚ) / (atRisk g a : ℚ))
  else p

/-- One iteration of `for age in range(1, max_age + 1)`: update the running
probability and append a row for this age either way. -/
def survivalStep (g : List (StrategyLap × Bool)) (c comp : String)
    (acc : ℚ × List SurvivalRow) (a : Nat) : ℚ × List SurvivalRow :=
  (nextProb g acc.1 a, acc.2 ++ [⟨c, comp, a, nextProb g acc.1 a⟩])

/-- The survival rows of one (circuit, compound) group: the age loop starting
from probability 1.0. -/
def survivalGroup (c comp : String) (g : List (StrategyLap × Bool)) :
    List SurvivalRow :=
  ((List.range' 1 (maxAge g)).foldl (survivalStep g c comp) (1, [])).2

/-- The rows of one circuit's `groupby('circuit_id')` group. -/
def circuitGroup (flagged : List (StrategyLap × Bool)) (c : String) :
    List (StrategyLap × Bool) :=
  flagged.filter (fun p => p.1.circuit_id = c)

/-- Shallow embedding of `calculate_tire_life_probability(laps_df)`: empty
input gives an empty table; otherwise one survival curve per (circuit,
compound) group of the flagged frame. -/
def calculate_tire_life_probability (laps : List StrategyLap) :
    List SurvivalRow :=
  if laps = [] then []
  else
    (((addFailureFlags laps).map (fun p => p.1.circuit_id)).dedup).flatMap
      (fun c =>
        (((circuitGroup (addFailureFlags laps) c).map
            (fun p => p.1.compound)).dedup).flatMap
          (fun comp =>
            survivalGroup c comp
              ((circuitGroup (addFailureFlags laps) c).filter
                (fun p => p.1.compound = comp))))

/-! ### The closed form of the survival curve -/

/-- The discrete hazard at age `a`: `failures/at_risk` when the age occurs,
0 otherwise. -/
def hazardAt (g : List (StrategyLap × Bool)) (a : Nat) : ℚ :=
  if 0 < atRisk g a then (failuresAt g a : ℚ) / (atRisk g a : ℚ) else 0

/-- The survival probability after ages `1..a`: the product of
`(1 - hazard)` over them (`probAt g 0 = 1`, the value "before the first
hazard"). -/
def probAt (g : List (StrategyLap × Bool)) (a : Nat) : ℚ :=
  ((List.range' 1 a).map (fun k => 1 - hazardAt g k)).prod

/-- The (circuit, compound) slice of the flagged frame. -/
def survGroupOf (laps : List StrategyLap) (c comp : String) :
    List (StrategyLap × Bool) :=
  (addFailureFlags laps).filter
    (fun p => p.1.circuit_id = c ∧ p.1.compound = comp)

/-! ### Properties of the survival curve -/

theorem range'_one_concat (n : Nat) :
    List.range' 1 (n + 1) = List.range' 1 n ++ [n + 1] := by
  have h := @List.range'_concat 1 1 n
  rw [one_mul, Nat.add_comm 1 n] at h
  exact h

theorem probAt_zero (g : List (StrategyLap × Bool)) : probAt g 0 = 1 := rfl

theorem probAt_succ (g : List (StrategyLap × Bool)) (a : Nat) :
    probAt g (a + 1) = probAt g a * (1 - hazardAt g (a + 1)) := by
  unfold probAt
  rw [range'_one_concat, List.map_append, List.prod_append]
  simp

theorem failuresAt_le_atRisk (g : List (StrategyLap × Bool)) (a : Nat) :
    failuresAt g a ≤ atRisk g a := by
  unfold failuresAt atRisk
  rw [← List.countP_eq_length_filter, ← List.countP_eq_length_filter]
  apply List.countP_mono_left
  intro x _ hx
  simp only [decide_eq_true_eq] at hx ⊢
  exact hx.1

theorem hazardAt_nonneg (g : List (StrategyLap × Bool)) (a : Nat) :
    0 ≤ hazardAt g a := by
  unfold hazardAt
  by_cases h : 0 < atRisk g a
  · rw [if_pos h]
    exact div_nonneg (Nat.cast_nonneg _) (Nat.cast_nonneg _)
  · rw [if_neg h]

theorem hazardAt_le_one (g : List (StrategyLap × Bool)) (a : Nat) :
    hazardAt g a ≤ 1 := by
  unfold hazardAt
  by_cases h : 0 < atRisk g a
  · rw [if_pos h]
    rw [div_le_one (by exact_mod_cast h)]
    exact_mod_cast failuresAt_le_atRisk g a
  · rw [if_neg h]
    exact zero_le_one

theorem hazardAt_eq_zero_of_no_risk (g : List (StrategyLap × Bool)) (a : Nat)
    (h : atRisk g a = 0) : hazardAt g a = 0 := by
  unfold hazardAt
  rw [if_neg (by omega)]

theorem probAt_bounds (g : List (StrategyLap × Bool)) :
    ∀ a, 0 ≤ probAt g a ∧ probAt g a ≤ 1 := by
  intro a
  induction a with
  | zero =>
    rw [probAt_zero]
    exact ⟨zero_le_one, le_refl 1⟩
  | succ m ih =>
    rw [probAt_succ]
    constructor
    · exact mul_nonneg ih.1 (by have := hazardAt_le_one g (m + 1); linarith)
    · exact mul_le_one₀ ih.2 (by have := hazardAt_le_one g (m + 1); linarith)
        (by have := hazardAt_nonneg g (m + 1); linarith)

theorem probAt_succ_le (g : List (StrategyLap × Bool)) (a : Nat) :
    probAt g (a + 1) ≤ probAt g a := by
  rw [probAt_succ]
  have h0 := (probAt_bounds g a).1
  have hf : 1 - hazardAt g (a + 1) ≤ 1 := by
    have := hazardAt_nonneg g (a + 1)
    linarith
  calc probAt g a * (1 - hazardAt g (a + 1))
      ≤ probAt g a * 1 := mul_le_mul_of_nonneg_left hf h0
    _ = probAt g a := mul_one _

theorem probAt_antitone (g : List (StrategyLap × Bool)) {a b : Nat}
    (h : a ≤ b) : probAt g b ≤ probAt g a := by
  induction b with
  | zero =>
    have : a = 0 := Nat.le_zero.mp h
    subst this
    exact le_refl _
  | succ m ih =>
    rcases Nat.lt_or_ge a (m + 1) with hlt | hge
    · exact le_trans (probAt_succ_le g m) (ih (Nat.lt_succ_iff.mp hlt))
    · have : a = m + 1 := le_antisymm h hge
      subst this
      exact le_refl _

theorem nextProb_probAt (g : List (StrategyLap × Bool)) (m : Nat) :
    nextProb g (probAt g m) (m + 1) = probAt g (m + 1) := by
  rw [probAt_succ]
  unfold nextProb hazardAt
  by_cases h : 0 < atRisk g (m + 1)
  · rw [if_pos h, if_pos h]
  · rw [if_neg h, if_neg h]
    ring

/-- The age loop in closed form: after ages `1..n` the accumulator holds the
running probability `probAt g n` and one row per age with its probability. -/
theorem survival_foldl (g : List (StrategyLap × Bool)) (c comp : String) :
    ∀ n, (List.range' 1 n).foldl (survivalStep g c comp) (1, []) =
      (probAt g n,
        (List.range' 1 n).map (fun a => ⟨c, comp, a, probAt g a⟩)) := by
  intro n
  induction n with
  | zero => rfl
  | succ m ih =>
    rw [range'_one_concat, List.foldl_concat, ih, List.map_append]
    unfold survivalStep
    rw [nextProb_probAt]
    simp

theorem survivalGroup_eq (c comp : String) (g : List (StrategyLap × Bool)) :
    survivalGroup c comp g =
      (List.range' 1 (maxAge g)).map (fun a => ⟨c, comp, a, probAt g a⟩) := by
  unfold survivalGroup
  rw [survival_foldl]

theorem survivalGroup_keys (c comp : String) (g : List (StrategyLap × Bool)) :
    ∀ r ∈ survivalGroup c comp g, r.circuit_id = c ∧ r.compound = comp := by
  intro r hr
  rw [survivalGroup_eq] at hr
  obtain ⟨a, _, hrow⟩ := List.mem_map.mp hr
  subst hrow
  exact ⟨rfl, rfl⟩

/-! ### Extracting one (circuit, compound) block from the output -/

theorem filter_flatMap_nil {α β : Type} (L : List α) (F : α → List β)
    (p : β → Bool) (h : ∀ x ∈ L, (F x).filter p = []) :
    (L.flatMap F).filter p = [] := by
  induction L with
  | nil => rfl
  | cons a as ih =>
    rw [List.flatMap_cons, List.filter_append, h a (List.mem_cons_self a as),
      List.nil_append]
    exact ih (fun x hx => h x (List.mem_cons_of_mem a hx))

/-- Filtering the concatenation of blocks for a test that only one block can
satisfy keeps exactly that block's filtered rows. -/
theorem filter_flatMap_single {α β : Type} (L : List α) (F : α → List β)
    (p : β → Bool) (c : α) (hc : c ∈ L) (hnd : L.Nodup)
    (hother : ∀ x ∈ L, x ≠ c → (F x).filter p = []) :
    (L.flatMap F).filter p = (F c).filter p := by
  induction L with
  | nil => cases hc
  | cons a as ih =>
    rw [List.flatMap_cons, List.filter_append]
    rcases List.mem_cons.mp hc with hac | hcas
    · subst hac
      have hrest : (as.flatMap F).filter p = [] := by
        apply filter_flatMap_nil
        intro x hx
        refine hother x (List.mem_cons_of_mem _ hx) ?_
        intro hxc
        subst hxc
        exact (List.nodup_cons.mp hnd).1 hx
      rw [hrest, List.append_nil]
    · have ha : (F a).filter p = [] := by
        refine hother a (List.mem_cons_self a as) ?_
        intro hac
        subst hac
        exact (List.nodup_cons.mp hnd).1 hcas
      rw [ha, List.nil_append]
      exact ih hcas (List.nodup_cons.mp hnd).2
        (fun x hx hxc => hother x (List.mem_cons_of_mem a hx) hxc)

/-- The (circuit, compound) slice of the output table is exactly the
survival curve of that group of the flagged frame. -/
theorem output_filter_eq (laps : List StrategyLap) (c comp : String)
    (hG : survGroupOf laps c comp ≠ []) :
    (calculate_tire_life_probability laps).filter
        (fun r => r.circuit_id = c ∧ r.compound = comp) =
      survivalGroup c comp (survGroupOf laps c comp) := by
  obtain ⟨q, hq⟩ : ∃ q, q ∈ survGroupOf laps c comp := by
    cases h : survGroupOf laps c comp with
    | nil => exact absurd h hG
    | cons x xs => exact ⟨x, h ▸ List.mem_cons_self x xs⟩
  have hqmem : q ∈ addFailureFlags laps := List.mem_of_mem_filter hq
  have hqkey : q.1.circuit_id = c ∧ q.1.compound = comp := by
    have := List.of_mem_filter hq
    simpa using this
  have hlaps : laps ≠ [] := by
    intro h
    subst h
    simp [addFailureFlags, sortedGroups, List.mergeSort_nil] at hqmem
  unfold calculate_tire_life_probability
  rw [if_neg hlaps]
  have hcmem : c ∈ ((addFailureFlags laps).map (fun p => p.1.circuit_id)).dedup := by
    rw [List.mem_dedup]
    exact List.mem_map.mpr ⟨q, hqmem, hqkey.1⟩
  have houter : ∀ x ∈ ((addFailureFlags laps).map (fun p => p.1.circuit_id)).dedup,
      x ≠ c →
      (((((circuitGroup (addFailureFlags laps) x).map
            (fun p => p.1.compound)).dedup).flatMap
          (fun comp2 => survivalGroup x comp2
            ((circuitGroup (addFailureFlags laps) x).filter
              (fun p => p.1.compound = comp2)))).filter
        (fun r => r.circuit_id = c ∧ r.compound = comp)) = [] := by
    intro c2 _ hc2
    apply filter_flatMap_nil
    intro comp2 _
    rw [List.filter_eq_nil_iff]
    intro r hr
    have hk := survivalGroup_keys c2 comp2 _ r hr
    simp only [decide_eq_true_eq, not_and]
    intro hrc
    exact absurd (hk.1.symm.trans hrc) hc2
  rw [filter_flatMap_single _ _ _ c hcmem (List.nodup_dedup _) houter]
  have hq2 : q ∈ circuitGroup (addFailureFlags laps) c :=
    List.mem_filter.mpr ⟨hqmem, by simpa using hqkey.1⟩
  have hcompmem : comp ∈
      ((circuitGroup (addFailureFlags laps) c).map (fun p => p.1.compound)).dedup := by
    rw [List.mem_dedup]
    exact List.mem_map.mpr ⟨q, hq2, hqkey.2⟩
  have hinner : ∀ x ∈ ((circuitGroup (addFailureFlags laps) c).map
      (fun p => p.1.compound)).dedup, x ≠ comp →
      ((survivalGroup c x
          ((circuitGroup (addFailureFlags laps) c).filter
            (fun p => p.1.compound = x))).filter
        (fun r => r.circuit_id = c ∧ r.compound = comp)) = [] := by
    intro comp2 _ hcomp2
    rw [List.filter_eq_nil_iff]
    intro r hr
    have hk := survivalGroup_keys c comp2 _ r hr
    simp only [decide_eq_true_eq, not_and]
    intro _ hrcomp
    exact absurd (hk.2.symm.trans hrcomp) hcomp2
  rw [filter_flatMap_single _ _ _ comp hcompmem (List.nodup_dedup _) hinner]
  have hself : (survivalGroup c comp
      ((circuitGroup (addFailureFlags laps) c).filter
        (fun p => p.1.compound = comp))).filter
      (fun r => r.circuit_id = c ∧ r.compound = comp) =
      survivalGroup c comp
        ((circuitGroup (addFailureFlags laps) c).filter
          (fun p => p.1.compound = comp)) := by
    rw [List.filter_eq_self]
    intro r hr
    have hk := survivalGroup_keys c comp _ r hr
    simp [hk.1, hk.2]
  rw [hself]
  have hgroups : (circuitGroup (addFailureFlags laps) c).filter
      (fun p => p.1.compound = comp) = survGroupOf laps c comp := by
    unfold circuitGroup survGroupOf
    rw [List.filter_filter]
    apply List.filter_congr
    intro x _
    by_cases h1 : x.1.compound = comp <;> by_cases h2 : x.1.circuit_id = c <;>
      simp [h1, h2]
  rw [hgroups]

theorem rollingMean3_length (ds : List ℚ) :
    (rollingMean3 ds).length = ds.length := by
  unfold rollingMean3
  rw [List.length_map, List.length_range]

theorem failureFlags_length (ds : List ℚ) :
    (failureFlags ds).length = ds.length := by
  unfold failureFlags shift1
  rw [List.length_map, List.length_zip, List.length_cons, List.length_map,
    List.length_dropLast, rollingMean3_length]
  omega

theorem map_fst_flatMap_zip {α β : Type} (L : List (List α)) (F : List α → List β)
    (hF : ∀ g ∈ L, g.length ≤ (F g).length) :
    (L.flatMap (fun g => g.zip (F g))).map Prod.fst = L.flatten := by
  induction L with
  | nil => rfl
  | cons g L ih =>
    rw [List.flatMap_cons, List.map_append,
      List.map_fst_zip _ _ (hF g (List.mem_cons_self g L)), List.flatten_cons,
      ih (fun x hx => hF x (List.mem_cons_of_mem _ hx))]

/-- The flagged frame's rows are exactly the sorted laps (the groupby
transform loses and reorders nothing). -/
theorem addFailureFlags_fst (laps : List StrategyLap) :
    (addFailureFlags laps).map Prod.fst = laps.mergeSort stratLapLE := by
  unfold addFailureFlags
  rw [map_fst_flatMap_zip]
  · unfold sortedGroups
    exact List.flatten_splitBy _ _
  · intro g _
    rw [failureFlags_length, List.length_map]

/-- A lap of the input guarantees its (circuit, compound) group is present in
the flagged frame. -/
theorem survGroupOf_ne_nil (laps : List StrategyLap) (l : StrategyLap)
    (hl : l ∈ laps) : survGroupOf laps l.circuit_id l.compound ≠ [] := by
  have h1 : l ∈ (addFailureFlags laps).map Prod.fst := by
    rw [addFailureFlags_fst]
    exact mem_mergeSort_key.mpr hl
  obtain ⟨p, hp, hpl⟩ := List.mem_map.mp h1
  have hpmem : p ∈ survGroupOf laps l.circuit_id l.compound := by
    refine List.mem_filter.mpr ⟨hp, ?_⟩
    simp [hpl]
  exact List.ne_nil_of_mem hpmem

/-! ### Claim C6 -/

/-- C6 (confirmed): for every (circuit, compound) group present in the
flagged frame, the output's rows with that key are exactly one row per age
from 1 to the group's maximum observed age (no gaps), carrying the running
survival probability `probAt`; that probability starts at 1.0 before the
first hazard, multiplies by `(1 - hazard)` at each age, stays within [0, 1],
is non-increasing in age, and an age with zero at-risk laps has hazard 0 (so
the probability carries forward unchanged there). -/
theorem survival_curve_spec (laps : List StrategyLap) (c comp : String)
    (hG : survGroupOf laps c comp ≠ []) :
    (calculate_tire_life_probability laps).filter
        (fun r => r.circuit_id = c ∧ r.compound = comp) =
      (List.range' 1 (maxAge (survGroupOf laps c comp))).map
        (fun a => ⟨c, comp, a, probAt (survGroupOf laps c comp) a⟩) ∧
    probAt (survGroupOf laps c comp) 0 = 1 ∧
    (∀ a, probAt (survGroupOf laps c comp) (a + 1) =
      probAt (survGroupOf laps c comp) a *
        (1 - hazardAt (survGroupOf laps c comp) (a + 1))) ∧
    (∀ a, 0 ≤ probAt (survGroupOf laps c comp) a ∧
      probAt (survGroupOf laps c comp) a ≤ 1) ∧
    (∀ a b, a ≤ b → probAt (survGroupOf laps c comp) b ≤
      probAt (survGroupOf laps c comp) a) ∧
    (∀ a, atRisk (survGroupOf laps c comp) a = 0 →
      hazardAt (survGroupOf laps c comp) a = 0) := by
  refine ⟨?_, probAt_zero _, fun a => probAt_succ _ a, fun a => probAt_bounds _ a,
    fun a b h => probAt_antitone _ h, fun a h => hazardAt_eq_zero_of_no_risk _ a h⟩
  rw [output_filter_eq laps c comp hG, survivalGroup_eq]

/-- Three laps of one stint at Spa on softs, ages 1..3, with a pace cliff on
the last lap. -/
def c6laps : List StrategyLap :=
  [⟨1, 1, 10, "spa", "SOFT", 1, 90⟩, ⟨1, 1, 11, "spa", "SOFT", 2, 90⟩,
   ⟨1, 1, 12, "spa", "SOFT", 3, 95⟩]

theorem c6_witness :
    probAt (survGroupOf c6laps "spa" "SOFT") 0 = 1 ∧
    probAt (survGroupOf c6laps "spa" "SOFT") 2 ≤
      probAt (survGroupOf c6laps "spa" "SOFT") 1 := by
  have hG : survGroupOf c6laps "spa" "SOFT" ≠ [] :=
    survGroupOf_ne_nil c6laps ⟨1, 1, 10, "spa", "SOFT", 1, 90⟩
      (List.mem_cons_self _ _)
  have h := survival_curve_spec c6laps "spa" "SOFT" hG
  exact ⟨h.2.1, h.2.2.2.2.1 1 2 (by omega)⟩

/-! ### Claim C7 -/

theorem shift1_getD_succ (xs : List ℚ) (j : Nat) (hj : j + 1 < xs.length) :
    (shift1 xs).getD (j + 1) none = some (xs.getD j 0) := by
  unfold shift1
  rw [List.getD_cons_succ]
  have hj2 : j < xs.dropLast.length := by
    rw [List.length_dropLast]
    omega
  rw [List.getD_eq_getElem _ _ (by rw [List.length_map]; exact hj2),
    List.getElem_map, List.getElem_dropLast,
    List.getD_eq_getElem _ _ (by omega)]

theorem rollingMean3_getD (xs : List ℚ) (j : Nat) (hj : j < xs.length) :
    (rollingMean3 xs).getD j 0 =
      ((xs.drop (j + 1 - min (j + 1) 3)).take (min (j + 1) 3)).sum
        / ((min (j + 1) 3 : Nat) : ℚ) := by
  unfold rollingMean3
  rw [List.getD_eq_getElem _ _
    (by rw [List.length_map, List.length_range]; exact hj)]
  rw [List.getElem_map, List.getElem_range]

theorem failureFlags_getD (ds : List ℚ) (i : Nat) (hi : i < ds.length) :
    (failureFlags ds).getD i false =
      match (shift1 (rollingMean3 ds)).getD i none with
      | none => false
      | some b => decide (ds.getD i 0 - b > 3 / 2) := by
  have hs : i < (shift1 (rollingMean3 ds)).length := by
    unfold shift1
    rw [List.length_cons, List.length_map, List.length_dropLast,
      rollingMean3_length]
    omega
  have hz : i < ((shift1 (rollingMean3 ds)).zip ds).length := by
    rw [List.length_zip]
    exact lt_min hs hi
  unfold failureFlags
  rw [List.getD_eq_getElem _ _ (by rw [List.length_map]; exact hz),
    List.getElem_map, List.getElem_zip,
    List.getD_eq_getElem _ _ hs, List.getD_eq_getElem _ _ hi]

/-- C7 (confirmed): in each (driver_id, stint) group of the sorted frame, the
lap at position `i` is flagged as a degradation failure iff it is not the
group's first lap and its duration exceeds, by more than 1.5, the mean of the
previous `min i 3` durations of the group — the trailing rolling mean with
window 3 shifted by one lap, so the lap is excluded from its own baseline
(`min_periods=1` makes the first baselines means over fewer than 3 laps). -/
theorem failure_flag_iff (laps : List StrategyLap) (g : List StrategyLap)
    (_hg : g ∈ sortedGroups laps) (i : Nat) (hi : i < g.length) :
    ((failureFlags (g.map (fun l => l.lap_duration))).getD i false = true ↔
      (0 < i ∧
        (g.map (fun l => l.lap_duration)).getD i 0 -
          ((((g.map (fun l => l.lap_duration)).drop (i - min i 3)).take
            (min i 3)).sum / ((min i 3 : Nat) : ℚ)) > 3 / 2)) := by
  have hi' : i < (g.map (fun l => l.lap_duration)).length := by
    rw [List.length_map]
    exact hi
  rw [failureFlags_getD _ i hi']
  cases i with
  | zero =>
    simp [shift1]
  | succ j =>
    have hj : j + 1 < (rollingMean3 (g.map (fun l => l.lap_duration))).length := by
      rw [rollingMean3_length]
      exact hi'
    rw [shift1_getD_succ _ j hj, rollingMean3_getD _ j (by omega)]
    have harith : j + 1 - min (j + 1) 3 = j + 1 - min (j + 1) 3 := rfl
    simp only [decide_eq_true_eq]
    constructor
    · intro h
      exact ⟨Nat.succ_pos j, h⟩
    · intro h
      exact h.2

/-- Two laps of one stint: 90 then 95 time units — a 5-unit jump over the
1-lap trailing baseline. -/
def c7laps : List StrategyLap :=
  [⟨1, 1, 10, "spa", "SOFT", 1, 90⟩, ⟨1, 1, 11, "spa", "SOFT", 2, 95⟩]

theorem c7_witness :
    (failureFlags (c7laps.map (fun l => l.lap_duration))).getD 1 false = true := by
  have hms : c7laps.mergeSort stratLapLE = c7laps := by
    simp [List.mergeSort, c7laps, stratLapLE]
  have hsg : sortedGroups c7laps = [c7laps] := by
    unfold sortedGroups
    rw [hms]
    rfl
  have h := failure_flag_iff c7laps c7laps
    (by rw [hsg]; exact List.mem_singleton.mpr rfl) 1 (by decide)
  refine h.mpr ⟨by decide, ?_⟩
  simp [c7laps]
  norm_num
